import Mathlib

/-!
Verification of the session-persistence and chat-history core of the
image-csv-chatbot repository.

The embedding covers `src/models/message.py` (the `ChatMessage` value object),
`src/services/persistence_service.py` (the JSON-file session store) and
`src/services/chat_history.py` (the in-memory history manager).

Modelling conventions:
* Python `bytes` values are `List Nat` with each element `< 256`
  (`ValidBytes`).
* Python's `base64.b64encode` / `base64.b64decode` standard-library calls are
  embedded as an executable base64 codec (`b64encode` / `b64decode`) over
  byte lists, including `=` padding, with the decode-encode round trip proved.
* The filesystem is a list of files, each with a name (the session id),
  a modification time, and a content that is either a parsed session record
  or `corrupt` (a file `json.load` would reject).  Clock readings
  (`datetime.now()`) and the success of raw disk writes are passed in as
  explicit parameters, since they are environment inputs.
* The history-manager startup routine of chat_history.py is embedded under
  the name `initHistory`, and the retention cleanup it triggers through the
  persistence service under `cleanup_old_sessions`.
-/

namespace Chatbot

/-- A Python `bytes` value: a list of byte values. -/
abbrev ByteStr := List Nat

/-- Every element of the list is an actual byte (`< 256`). -/
def ValidBytes (b : ByteStr) : Prop := ∀ x ∈ b, x < 256

/-- The standard base64 alphabet, in index order. -/
def b64chars : List Char :=
  ['A', 'B', 'C', 'D', 'E', 'F', 'G', 'H', 'I', 'J', 'K', 'L', 'M',
   'N', 'O', 'P', 'Q', 'R', 'S', 'T', 'U', 'V', 'W', 'X', 'Y', 'Z',
   'a', 'b', 'c', 'd', 'e', 'f', 'g', 'h', 'i', 'j', 'k', 'l', 'm',
   'n', 'o', 'p', 'q', 'r', 's', 't', 'u', 'v', 'w', 'x', 'y', 'z',
   '0', '1', '2', '3', '4', '5', '6', '7', '8', '9', '+', '/']

/-- The base64 digit for a sextet value. -/
def b64char (s : Nat) : Char := b64chars.getD s '?'

/-- The sextet value of a base64 digit. -/
def b64val (c : Char) : Nat := b64chars.indexOf c

/-- Base64-encode a byte list, three bytes to four digits, `=`-padded. -/
def b64encodeList : List Nat → List Char
  | [] => []
  | [a] => [b64char (a / 4), b64char (a % 4 * 16), '=', '=']
  | [a, b] => [b64char (a / 4), b64char (a % 4 * 16 + b / 16), b64char (b % 16 * 4), '=']
  | a :: b :: c :: rest =>
      b64char (a / 4) :: b64char (a % 4 * 16 + b / 16) ::
        b64char (b % 16 * 4 + c / 64) :: b64char (c % 64) :: b64encodeList rest
  termination_by structural l => l

/-- Base64-decode a digit list, four digits to three bytes, honouring
trailing `=` padding. -/
def b64decodeList : List Char → List Nat
  | c1 :: c2 :: c3 :: c4 :: rest =>
      if c3 = '=' then
        [b64val c1 * 4 + b64val c2 / 16]
      else if c4 = '=' then
        [b64val c1 * 4 + b64val c2 / 16, b64val c2 % 16 * 16 + b64val c3 / 4]
      else
        (b64val c1 * 4 + b64val c2 / 16) :: (b64val c2 % 16 * 16 + b64val c3 / 4) ::
          (b64val c3 % 4 * 64 + b64val c4) :: b64decodeList rest
  | _ => []
  termination_by structural l => l

/-- Model of Python `base64.b64encode(b).decode("utf-8")`. -/
def b64encode (b : ByteStr) : String := ⟨b64encodeList b⟩

/-- Model of Python `base64.b64decode(s)`. -/
def b64decode (s : String) : ByteStr := b64decodeList s.data

/-! ## Message records

`ChatMessage.to_dict` (src/models/message.py) produces a plain mapping with
keys `role`, `content`, `timestamp`, `plots`, `image`; these mappings are what
the persistence service saves and loads.  `MsgRecord` is that mapping,
typed. -/

/-- A message dictionary as produced by `ChatMessage.to_dict` and consumed by
`PersistenceService.save_session`: `role`, `content` and `timestamp` are
strings, `plots` a list of byte blobs, `image` an optional byte blob. -/
structure MsgRecord where
  role : String
  content : String
  timestamp : String
  plots : List ByteStr
  image : Option ByteStr
deriving DecidableEq, Repr

/-- All byte blobs of the record are lists of actual bytes. -/
def MsgRecord.Valid (m : MsgRecord) : Prop :=
  (∀ p ∈ m.plots, ValidBytes p) ∧ (∀ b ∈ m.image, ValidBytes b)

instance (b : ByteStr) : Decidable (ValidBytes b) :=
  inferInstanceAs (Decidable (∀ x ∈ b, x < 256))

instance (o : Option ByteStr) : Decidable (∀ b ∈ o, ValidBytes b) :=
  match o with
  | none => isTrue (by simp)
  | some b => decidable_of_iff (ValidBytes b) (by simp)

instance (m : MsgRecord) : Decidable m.Valid :=
  inferInstanceAs (Decidable (_ ∧ _))

/-- The `ChatMessage` dataclass (src/models/message.py): `role`, `content`,
optional `timestamp`, optional `plots` list (dataclass default: empty list),
optional `image`. -/
structure ChatMessage where
  role : String
  content : String
  timestamp : Option String := none
  plots : Option (List ByteStr) := some []
  image : Option ByteStr := none
deriving DecidableEq, Repr

/-- Embedding of `ChatMessage.to_dict`.  The Python body evaluates
`self.timestamp or datetime.now().strftime(...)` and `self.plots or []`;
the clock reading is the explicit `now` argument.  Python's `or` replaces a
falsy left operand (`None` or the empty string / empty list), so a `None` or
`""` timestamp becomes `now`, and a `None` or `[]` plots value becomes the
empty list (for lists this is the identity on present values). -/
def ChatMessage.to_dict (m : ChatMessage) (now : String) : MsgRecord :=
  { role := m.role
    content := m.content
    timestamp := match m.timestamp with
      | some t => if t = "" then now else t
      | none => now
    plots := m.plots.getD []
    image := m.image }

/-- A raw persisted record as seen by `ChatMessage.from_dict`: every field may
be absent.  (`image` present-as-`null` and absent are both `none`, as
`dict.get` does not distinguish them.) -/
structure RawRecord where
  role : Option String
  content : Option String
  timestamp : Option String
  plots : Option (List ByteStr)
  image : Option ByteStr
deriving DecidableEq, Repr

/-- Embedding of `ChatMessage.from_dict`: `data["role"]` and `data["content"]` raise
`KeyError` when absent (the spec's `MalformedRecordError`); the remaining
fields use `data.get` with defaults (`None`, `[]`, `None`). -/
def ChatMessage.from_dict (data : RawRecord) : Except String ChatMessage :=
  match data.role with
  | none => .error "KeyError: role"
  | some r =>
    match data.content with
    | none => .error "KeyError: content"
    | some c =>
      .ok { role := r, content := c, timestamp := data.timestamp,
            plots := some (data.plots.getD []), image := data.image }

/-! ## Session store (src/services/persistence_service.py)

The filesystem is a list of files.  Each file has a name (the session id: the
file `chat_sessions/<id>.json`), an on-disk modification time, and a content:
either a parsed session record, or `corrupt` for a file whose content
`json.load` (or the interrupted `json.dump` of a failed save) would not
round-trip. -/

/-- A message as it appears inside a session JSON file: the byte blobs of
`plots` and `image` are base64 text. -/
structure EncMsg where
  role : String
  content : String
  timestamp : String
  plots : List String
  image : Option String
deriving DecidableEq, Repr

/-- A parsed session file: `session_id`, `created_at`, `message_count` and
the message records, as written by `save_session`. -/
structure SessionFile where
  session_id : String
  created_at : String
  message_count : Nat
  messages : List EncMsg
deriving DecidableEq, Repr

/-- Content of an on-disk session file. -/
inductive FileContent where
  | valid (data : SessionFile)
  | corrupt
deriving DecidableEq, Repr

/-- One file in the sessions directory. -/
structure FSFile where
  name : String
  mtime : Int
  content : FileContent
deriving DecidableEq, Repr

/-- The sessions directory, in directory-listing order. -/
abbrev FS := List FSFile

/-- Read the content of the file named `n`, if present. -/
def fsLookup (fs : FS) (n : String) : Option FileContent :=
  (fs.find? (fun f => f.name = n)).map (fun f => f.content)

/-- Write content `c` with modification time `t` to the file named `n`,
overwriting in place or creating the file. -/
def fsSet : FS → String → Int → FileContent → FS
  | [], n, t, c => [⟨n, t, c⟩]
  | f :: rest, n, t, c =>
    if f.name = n then ⟨n, t, c⟩ :: rest else f :: fsSet rest n t c

/-- The base64 conversion `save_session` applies to one message dictionary.
`plots` is encoded only when truthy (non-empty); since mapping over the empty
list is the empty list, both branches produce `map b64encode`.  `image` is
encoded only when truthy: a present **empty** blob evades the guard, stays a
raw `bytes` object in the dictionary, and makes the later `json.dump` raise —
that is the `none` result. -/
def encodeMsg (m : MsgRecord) : Option EncMsg :=
  let plots' := if m.plots.isEmpty then [] else m.plots.map b64encode
  match m.image with
  | none => some ⟨m.role, m.content, m.timestamp, plots', none⟩
  | some b =>
    if b.isEmpty then none
    else some ⟨m.role, m.content, m.timestamp, plots', some (b64encode b)⟩

/-- Serialize all messages; `none` when any message would make `json.dump`
raise. -/
def encodeMessages : List MsgRecord → Option (List EncMsg)
  | [] => some []
  | m :: rest =>
    match encodeMsg m with
    | none => none
    | some e =>
      match encodeMessages rest with
      | none => none
      | some es => some (e :: es)

/-- Embedding of `PersistenceService.save_session`.  `diskOk` models whether opening the
file for writing succeeds (an I/O error is caught and reported as `False`
with the filesystem untouched).  When the open succeeds, `json.dump` streams
into the already-truncated file: if serialization fails (a raw `bytes` value
left by the truthiness guard), the exception is caught, `False` is returned,
and the file is left behind with partial content (`corrupt`).  On success the
file holds the full record, with `created_at := now` and
`message_count := messages.length`. -/
def save_session (diskOk : Bool) (now : String) (nowT : Int) (fs : FS)
    (session_id : String) (messages : List MsgRecord) : FS × Bool :=
  if diskOk then
    match encodeMessages messages with
    | some encs =>
      (fsSet fs session_id nowT (.valid ⟨session_id, now, messages.length, encs⟩), true)
    | none => (fsSet fs session_id nowT .corrupt, false)
  else (fs, false)

/-- The base64 decoding `load_session` applies to one loaded message.  Both
decodes are guarded by truthiness: an empty `plots` list is left as the empty
list, and a `null` image stays absent.  (A present falsy `""` image is left
undecoded by the guard; as byte content it is the empty blob, which is how it
is represented here — `save_session` never writes that value.) -/
def decodeEncMsg (e : EncMsg) : MsgRecord :=
  { role := e.role
    content := e.content
    timestamp := e.timestamp
    plots := if e.plots.isEmpty then [] else e.plots.map b64decode
    image := e.image.map (fun s => if s = "" then [] else b64decode s) }

/-- Embedding of `PersistenceService.load_session`: absent file gives `None`; a file
`json.load` rejects is caught and gives `None`; otherwise the stored messages
are decoded. -/
def load_session (fs : FS) (session_id : String) : Option (List MsgRecord) :=
  match fsLookup fs session_id with
  | none => none
  | some .corrupt => none
  | some (.valid data) => some (data.messages.map decodeEncMsg)

/-- Retention window, `PersistenceService.MAX_SESSION_AGE_DAYS`. -/
def MAX_SESSION_AGE_DAYS : Nat := 7

/-- Modification times are in seconds. -/
def secondsPerDay : Nat := 86400

/-- The loop body of `_cleanup_old_sessions` over the directory listing.
`failIds` names the files whose `os.remove` raises.  The whole loop runs
inside one `try`/`except`: the first failing removal aborts the loop (the
remaining files are left untouched), and the exception is logged, not
propagated. -/
def cleanupFrom (failIds : List String) (cutoff : Int) : FS → FS
  | [] => []
  | f :: rest =>
    if f.mtime < cutoff then
      if f.name ∈ failIds then f :: rest
      else cleanupFrom failIds cutoff rest
    else f :: cleanupFrom failIds cutoff rest

/-- Embedding of the cleanup helper of the persistence service: removes session files whose
modification time is before `now` minus the retention window. -/
def cleanup_old_sessions (failIds : List String) (now : Int) (fs : FS) : FS :=
  cleanupFrom failIds (now - (MAX_SESSION_AGE_DAYS : Int) * (secondsPerDay : Int)) fs

/-- One entry of the `list_sessions` result. -/
structure SessionMeta where
  session_id : String
  created_at : String
  message_count : Nat
deriving DecidableEq, Repr

/-- The metadata `list_sessions` extracts from one file: `none` when the file
fails to parse and is skipped.  (Files written by `save_session` always carry
`session_id` and `created_at`, so the `data.get` fallbacks for those keys do
not fire in this model.) -/
def sessionMetaOf (f : FSFile) : Option SessionMeta :=
  match f.content with
  | .valid d => some ⟨d.session_id, d.created_at, d.message_count⟩
  | .corrupt => none

/-- Newest first: the sort order of `sessions.sort(key=..., reverse=True)`. -/
def newerFirst (a b : SessionMeta) : Prop := b.created_at ≤ a.created_at

instance : DecidableRel newerFirst := fun a b =>
  decidable_of_iff (b.created_at.toList ≤ a.created_at.toList)
    String.le_iff_toList_le.symm

instance : IsTotal SessionMeta newerFirst :=
  ⟨fun a b => le_total b.created_at a.created_at⟩

instance : IsTrans SessionMeta newerFirst :=
  ⟨fun _ _ _ hab hbc => le_trans hbc hab⟩

/-- Embedding of `PersistenceService.list_sessions`: collect the metadata of every file
that parses, skipping the rest, then sort by `created_at` descending (a
stable sort, modelled by insertion sort). -/
def list_sessions (fs : FS) : List SessionMeta :=
  List.insertionSort newerFirst (fs.filterMap sessionMetaOf)

/-! ## History manager (src/services/chat_history.py)

The Streamlit session state holds two keys, `messages` (`SESSION_KEY`) and
`session_id` (`SESSION_ID_KEY`); either may be absent (`none`).  Fresh
session ids come from `PersistenceService.generate_session_id`, a
clock-derived value passed in as an explicit parameter. -/

/-- The Streamlit session state as used by `ChatHistoryManager`. -/
structure AppState where
  messages : Option (List MsgRecord)
  session_id : Option String
deriving DecidableEq, Repr

/-- Embedding of the new-session helper of the history manager: empty message list and a
freshly generated id. -/
def create_new_session (freshId : String) : AppState :=
  { messages := some [], session_id := some freshId }

/-- Embedding of the history-manager startup (called `initHistory` here).  When the
`messages` key is absent (a fresh Streamlit session), query `list_sessions`;
adopt the newest listed session when loading it yields a truthy (non-empty)
message list, otherwise create a new session with id `freshA`.  Afterwards,
if the `session_id` key is still absent, set it to a second generated id
`freshB`. -/
def initHistory (fs : FS) (freshA freshB : String) (st : AppState) : AppState :=
  let st1 :=
    if st.messages.isNone then
      match list_sessions fs with
      | [] => create_new_session freshA
      | most_recent :: _ =>
        match load_session fs most_recent.session_id with
        | some loaded =>
          if loaded.isEmpty then create_new_session freshA
          else { messages := some loaded, session_id := some most_recent.session_id }
        | none => create_new_session freshA
    else st
  if st1.session_id.isNone then { st1 with session_id := some freshB } else st1

/-- Embedding of `ChatHistoryManager.get_messages`: `st.session_state.get(KEY, [])`. -/
def get_messages (st : AppState) : List MsgRecord :=
  st.messages.getD []

/-- Embedding of the auto-save helper of the history manager (`save_to_file` here): save the
current state when both the session id and the message list are truthy; its
own `try`/`except` and `save_session`'s make any failure silent. -/
def save_to_file (diskOk : Bool) (now : String) (nowT : Int) (fs : FS)
    (st : AppState) : FS :=
  match st.session_id with
  | some sid =>
    if sid ≠ "" ∧ ¬(st.messages.getD []).isEmpty then
      (save_session diskOk now nowT fs sid (st.messages.getD [])).1
    else fs
  | none => fs

/-- Embedding of `ChatHistoryManager.add_message`: construct a `ChatMessage` with
`plots or []` and no timestamp, append its `to_dict` to the in-memory list,
then auto-save.  Indexing `st.session_state[SESSION_KEY]` on an absent key
raises (`error`); the save path never raises. -/
def add_message (diskOk : Bool) (now : String) (nowT : Int) (fs : FS)
    (st : AppState) (role content : String) (plots : Option (List ByteStr))
    (image : Option ByteStr) : Except String (AppState × FS) :=
  match st.messages with
  | none => .error "KeyError: messages"
  | some msgs =>
    let message : ChatMessage :=
      { role := role, content := content, plots := some (plots.getD []), image := image }
    let st1 : AppState := { st with messages := some (msgs ++ [message.to_dict now]) }
    .ok (st1, save_to_file diskOk now nowT fs st1)

/-- Python slice `xs[-n:]` for a nonnegative `n`: `-0` is just `0`, so the
slice is the whole list; for `n ≥ 1` it is the last `n` elements (all of them
when `n ≥ xs.length`). -/
def pySliceLast (n : Nat) (xs : List MsgRecord) : List MsgRecord :=
  if n = 0 then xs else xs.drop (xs.length - n)

/-- Embedding of `ChatHistoryManager.get_last_n_messages`:
`messages[-n:] if n < len(messages) else messages`. -/
def get_last_n_messages (n : Nat) (st : AppState) : List MsgRecord :=
  let messages := get_messages st
  if n < messages.length then pySliceLast n messages else messages

/-! ## Lemmas about the base64 codec -/

theorem b64val_b64char_fin : ∀ s : Fin 64, b64val (b64char s.val) = s.val := by decide

theorem b64char_ne_pad_fin : ∀ s : Fin 64, b64char s.val ≠ '=' := by decide

theorem b64val_b64char (s : Nat) (h : s < 64) : b64val (b64char s) = s :=
  b64val_b64char_fin ⟨s, h⟩

theorem b64char_ne_pad (s : Nat) (h : s < 64) : b64char s ≠ '=' :=
  b64char_ne_pad_fin ⟨s, h⟩

/-- Decoding a base64 encoding recovers the original byte list. -/
theorem b64List_roundtrip : ∀ l : List Nat, ValidBytes l → b64decodeList (b64encodeList l) = l
  | [], _ => rfl
  | [a], h => by
    have ha : a < 256 := h a (by simp)
    simp [b64encodeList, b64decodeList]
    rw [b64val_b64char (a / 4) (by omega), b64val_b64char (a % 4 * 16) (by omega)]
    omega
  | [a, b], h => by
    have ha : a < 256 := h a (by simp)
    have hb : b < 256 := h b (by simp)
    simp [b64encodeList, b64decodeList, if_neg (b64char_ne_pad (b % 16 * 4) (by omega))]
    rw [b64val_b64char (a / 4) (by omega), b64val_b64char (a % 4 * 16 + b / 16) (by omega),
      b64val_b64char (b % 16 * 4) (by omega)]
    omega
  | a :: b :: c :: rest, h => by
    have ha : a < 256 := h a (by simp)
    have hb : b < 256 := h b (by simp)
    have hc : c < 256 := h c (by simp)
    have ih : b64decodeList (b64encodeList rest) = rest :=
      b64List_roundtrip rest (fun x hx => h x (by simp [hx]))
    simp [b64encodeList, b64decodeList,
      if_neg (b64char_ne_pad (b % 16 * 4 + c / 64) (by omega)),
      if_neg (b64char_ne_pad (c % 64) (by omega))]
    rw [b64val_b64char (a / 4) (by omega), b64val_b64char (a % 4 * 16 + b / 16) (by omega),
      b64val_b64char (b % 16 * 4 + c / 64) (by omega), b64val_b64char (c % 64) (by omega),
      ih]
    exact ⟨by omega, by omega, by omega, rfl⟩

/-- Decoding a base64-encoded byte string recovers the bytes
(`b64decode (b64encode b) = b`). -/
theorem b64_roundtrip (b : ByteStr) (hb : ValidBytes b) : b64decode (b64encode b) = b :=
  b64List_roundtrip b hb

/-- The encoding of a non-empty byte list is non-empty. -/
theorem b64encodeList_ne_nil : ∀ l : List Nat, l ≠ [] → b64encodeList l ≠ []
  | [], h => absurd rfl h
  | [_], _ => by simp [b64encodeList]
  | [_, _], _ => by simp [b64encodeList]
  | _ :: _ :: _ :: _, _ => by simp [b64encodeList]

/-- The encoding of a non-empty byte string is a non-empty string. -/
theorem b64encode_ne_empty (b : ByteStr) (hb : b ≠ []) : b64encode b ≠ "" := by
  intro hcontra
  exact b64encodeList_ne_nil b hb (by simpa using congrArg String.data hcontra)

/-! ## Store lemmas -/

/-- Writing a file and reading it back by name yields the written content. -/
theorem fsLookup_fsSet (fs : FS) (n : String) (t : Int) (c : FileContent) :
    fsLookup (fsSet fs n t c) n = some c := by
  induction fs with
  | nil => simp [fsSet, fsLookup]
  | cons f rest ih =>
    by_cases h : f.name = n
    · simp [fsSet, h, fsLookup]
    · simp only [fsSet, if_neg h]
      simpa [fsLookup, List.find?_cons, h] using ih

/-! ## Claim theorems -/

/-- With no removal failures, the cleanup loop keeps exactly the files whose
modification time is at or after the cutoff. -/
theorem cleanupFrom_no_fail (cutoff : Int) (fs : FS) :
    cleanupFrom [] cutoff fs = fs.filter (fun f => decide (cutoff ≤ f.mtime)) := by
  induction fs with
  | nil => rfl
  | cons f rest ih =>
    simp only [cleanupFrom, List.filter_cons]
    by_cases h : f.mtime < cutoff
    · rw [if_pos h, if_neg (List.not_mem_nil f.name),
        if_neg (by simpa using (by omega : ¬ cutoff ≤ f.mtime))]
      exact ih
    · rw [if_neg h, if_pos (by simpa using (by omega : cutoff ≤ f.mtime)), ih]

/-- Claim C6: For every stored session file, the retention cleanup (with no
removal failures) deletes exactly the files whose modification time is
strictly older than the 7-day retention window relative to now, and retains
every file within the window. -/
theorem cleanup_retention (now : Int) (fs : FS) :
    cleanup_old_sessions [] now fs =
      fs.filter (fun f =>
        decide (now - (MAX_SESSION_AGE_DAYS : Int) * (secondsPerDay : Int) ≤ f.mtime)) :=
  cleanupFrom_no_fail _ fs

/-- Claim C5, counterexample: with two stale files where removing the first
("a") fails, the second stale file "b" is *not* deleted, contradicting
"every other stale file is still examined and deleted". -/
theorem cleanup_failure_cex :
    (⟨"b", 0, .corrupt⟩ : FSFile) ∈
        cleanup_old_sessions ["a"] 1000000 [⟨"a", 0, .corrupt⟩, ⟨"b", 0, .corrupt⟩] ∧
      (0 : Int) < 1000000 - (MAX_SESSION_AGE_DAYS : Int) * (secondsPerDay : Int) ∧
      "b" ∉ ["a"] := by decide

/-- Claim C5, amended: a failure to delete one individual session file aborts
the processing of all remaining files: if the files before the first failing
stale file contain no failing stale file themselves, they are processed
normally (stale ones deleted), and the failing file together with *every*
file after it is retained.  The exception is caught at the whole-operation
level, so it does not propagate. -/
theorem cleanup_failure_aborts (failIds : List String) (now : Int)
    (pre post : FS) (f : FSFile)
    (hpre : ∀ g ∈ pre,
      g.mtime < now - (MAX_SESSION_AGE_DAYS : Int) * (secondsPerDay : Int) →
        g.name ∉ failIds)
    (hf : f.mtime < now - (MAX_SESSION_AGE_DAYS : Int) * (secondsPerDay : Int))
    (hfail : f.name ∈ failIds) :
    cleanup_old_sessions failIds now (pre ++ f :: post) =
      pre.filter (fun g =>
        decide (now - (MAX_SESSION_AGE_DAYS : Int) * (secondsPerDay : Int) ≤ g.mtime))
        ++ f :: post := by
  unfold cleanup_old_sessions
  set cutoff := now - (MAX_SESSION_AGE_DAYS : Int) * (secondsPerDay : Int) with hcut
  clear hcut
  induction pre with
  | nil =>
    simp only [List.nil_append, cleanupFrom]
    rw [if_pos hf, if_pos hfail]
    simp
  | cons g rest ih =>
    have hg := hpre g (by simp)
    have hrest : ∀ x ∈ rest, x.mtime < cutoff → x.name ∉ failIds :=
      fun x hx => hpre x (by simp [hx])
    simp only [List.cons_append, cleanupFrom, List.filter_cons, List.append_eq]
    by_cases h : g.mtime < cutoff
    · rw [if_pos h, if_neg (hg h),
        if_neg (by simpa using (by omega : ¬ cutoff ≤ g.mtime))]
      exact ih hrest
    · rw [if_neg h, if_pos (by simpa using (by omega : cutoff ≤ g.mtime)), ih hrest]
      simp

/-- Claim C5, amended, witness: concrete run: files `old1` (stale, deletable),
`new1` (within the window), `x` (stale, removal fails), `old2` (stale): the
cleanup deletes `old1`, keeps `new1`, then aborts at `x`, retaining `x` and
`old2`. -/
theorem cleanup_failure_aborts_witness :
    cleanup_old_sessions ["x"] 1000000
        [⟨"old1", 0, .corrupt⟩, ⟨"new1", 999999, .corrupt⟩,
         ⟨"x", 0, .corrupt⟩, ⟨"old2", 0, .corrupt⟩] =
      [⟨"new1", 999999, .corrupt⟩, ⟨"x", 0, .corrupt⟩, ⟨"old2", 0, .corrupt⟩] :=
  cleanup_failure_aborts ["x"] 1000000
    [⟨"old1", 0, .corrupt⟩, ⟨"new1", 999999, .corrupt⟩] [⟨"old2", 0, .corrupt⟩]
    ⟨"x", 0, .corrupt⟩ (by decide) (by decide) (by decide)

/-- Claim C7: the code evaluates `datetime.now()` afresh on every `to_dict`
call when `timestamp` is `None`: serializing the same timestamp-less message
at two observation times yields two *different* timestamps, contradicting the
claim that the defaulted timestamp must not change on repeated calls. -/
theorem to_dict_timestamp_unstable :
    (ChatMessage.to_dict ⟨"user", "hello", none, some [], none⟩
        "2024-01-01 10:00:00").timestamp = "2024-01-01 10:00:00" ∧
      (ChatMessage.to_dict ⟨"user", "hello", none, some [], none⟩
        "2024-01-01 10:00:01").timestamp = "2024-01-01 10:00:01" ∧
      (ChatMessage.to_dict ⟨"user", "hello", none, some [], none⟩
          "2024-01-01 10:00:00").timestamp ≠
        (ChatMessage.to_dict ⟨"user", "hello", none, some [], none⟩
          "2024-01-01 10:00:01").timestamp := by
  refine ⟨rfl, rfl, ?_⟩
  decide

/-- Claim C8: `from_dict` fails (with the `KeyError` the spec calls
`MalformedRecordError`) exactly when `role` or `content` is absent; when both
are present it succeeds, defaulting `timestamp` to absent, `plots` to the
empty list, and `image` to absent when those fields are missing. -/
theorem from_dict_spec (d : RawRecord) :
    ((∃ e, ChatMessage.from_dict d = .error e) ↔ d.role = none ∨ d.content = none) ∧
      (∀ r c, d.role = some r → d.content = some c →
        ChatMessage.from_dict d =
          .ok { role := r, content := c, timestamp := d.timestamp,
                plots := some (d.plots.getD []), image := d.image }) := by
  obtain ⟨role, content, ts, plots, image⟩ := d
  cases role <;> cases content <;> simp [ChatMessage.from_dict]

/-- Claim C8, witness: a record with only `role` and `content` parses to a
message with the defaulted optional fields. -/
theorem from_dict_spec_witness :
    ChatMessage.from_dict ⟨some "user", some "hi", none, none, none⟩ =
      .ok { role := "user", content := "hi", timestamp := none,
            plots := some [], image := none } :=
  (from_dict_spec ⟨some "user", some "hi", none, none, none⟩).2 "user" "hi" rfl rfl

/-- Claim C10: on a non-empty in-memory message list, `get_last_n_messages 0`
returns the *entire* list (the `n < len` branch slices from index `-0`, the
whole list), and any `n ≥ length` also returns the whole list. -/
theorem get_last_n_messages_spec (st : AppState) (msgs : List MsgRecord) (n : Nat)
    (hm : st.messages = some msgs) (_hne : msgs ≠ []) :
    get_last_n_messages 0 st = msgs ∧
      (msgs.length ≤ n → get_last_n_messages n st = msgs) := by
  have hg : get_messages st = msgs := by simp [get_messages, hm]
  constructor
  · by_cases h0 : 0 < msgs.length <;>
      simp [get_last_n_messages, hg, pySliceLast, h0]
  · intro hn
    have hlt : ¬ n < msgs.length := by omega
    simp [get_last_n_messages, hg, hlt]

/-- Claim C10, witness: a two-message history: `n = 0` returns both messages,
and so does `n = 5`. -/
theorem get_last_n_messages_spec_witness :
    get_last_n_messages 0
        ⟨some [⟨"user", "a", "t1", [], none⟩, ⟨"assistant", "b", "t2", [], none⟩],
         some "sid"⟩ =
      [⟨"user", "a", "t1", [], none⟩, ⟨"assistant", "b", "t2", [], none⟩] ∧
    get_last_n_messages 5
        ⟨some [⟨"user", "a", "t1", [], none⟩, ⟨"assistant", "b", "t2", [], none⟩],
         some "sid"⟩ =
      [⟨"user", "a", "t1", [], none⟩, ⟨"assistant", "b", "t2", [], none⟩] :=
  ⟨(get_last_n_messages_spec _ _ 5 rfl (by simp)).1,
   (get_last_n_messages_spec _ _ 5 rfl (by simp)).2 (by decide)⟩

/-- If some message has a present zero-length image blob, the serialization
pass fails (the raw `bytes` value reaches `json.dump`). -/
theorem encodeMessages_eq_none (msgs : List MsgRecord) (m : MsgRecord)
    (hm : m ∈ msgs) (him : m.image = some []) : encodeMessages msgs = none := by
  induction msgs with
  | nil => cases hm
  | cons a rest ih =>
    rcases List.mem_cons.mp hm with rfl | hm'
    · have ha : encodeMsg m = none := by simp [encodeMsg, him]
      simp [encodeMessages, ha]
    · cases hex : encodeMsg a with
      | none => simp [encodeMessages, hex]
      | some e => simp [encodeMessages, hex, ih hm']

/-- Claim C9: if the message list contains a message whose `image` is a
zero-length byte string, `save_session` returns `False`; and because the
destination file is opened for writing before serialization completes, the
file for that id is left corrupted — in particular a previously existing
(valid) file for that id is not left unchanged by the failed save. -/
theorem save_session_empty_image (fs : FS) (now : String) (nowT : Int)
    (sid : String) (msgs : List MsgRecord) (m : MsgRecord)
    (hm : m ∈ msgs) (him : m.image = some []) :
    (save_session true now nowT fs sid msgs).2 = false ∧
      fsLookup (save_session true now nowT fs sid msgs).1 sid = some .corrupt ∧
      ∀ sf, fsLookup fs sid = some (.valid sf) →
        fsLookup (save_session true now nowT fs sid msgs).1 sid ≠ fsLookup fs sid := by
  have henc := encodeMessages_eq_none msgs m hm him
  refine ⟨by simp [save_session, henc], by simp [save_session, henc, fsLookup_fsSet], ?_⟩
  intro sf hsf hcontra
  rw [hsf] at hcontra
  simp [save_session, henc, fsLookup_fsSet] at hcontra

/-- Claim C9, witness: one message with `image = b""`, saved over an existing
valid session file: the save reports failure and the file content changes. -/
theorem save_session_empty_image_witness :
    (save_session true "2024-06-02T00:00:00" 5
        [⟨"sid", 0, .valid ⟨"sid", "2024-06-01T00:00:00", 0, []⟩⟩] "sid"
        [⟨"user", "hi", "2024-01-01 00:00:00", [], some []⟩]).2 = false ∧
      fsLookup (save_session true "2024-06-02T00:00:00" 5
          [⟨"sid", 0, .valid ⟨"sid", "2024-06-01T00:00:00", 0, []⟩⟩] "sid"
          [⟨"user", "hi", "2024-01-01 00:00:00", [], some []⟩]).1 "sid" ≠
        fsLookup [⟨"sid", 0, .valid ⟨"sid", "2024-06-01T00:00:00", 0, []⟩⟩] "sid" :=
  ⟨(save_session_empty_image [⟨"sid", 0, .valid ⟨"sid", "2024-06-01T00:00:00", 0, []⟩⟩]
      "2024-06-02T00:00:00" 5 "sid" [⟨"user", "hi", "2024-01-01 00:00:00", [], some []⟩]
      ⟨"user", "hi", "2024-01-01 00:00:00", [], some []⟩ (by simp) rfl).1,
   (save_session_empty_image [⟨"sid", 0, .valid ⟨"sid", "2024-06-01T00:00:00", 0, []⟩⟩]
      "2024-06-02T00:00:00" 5 "sid" [⟨"user", "hi", "2024-01-01 00:00:00", [], some []⟩]
      ⟨"user", "hi", "2024-01-01 00:00:00", [], some []⟩ (by simp) rfl).2.2
     ⟨"sid", "2024-06-01T00:00:00", 0, []⟩ rfl⟩

/-- Claim C4: when the underlying storage write fails (the file cannot be
opened for writing), `add_message` still returns normally (no exception),
with the in-memory sequence ending in the newly appended message and the
append not rolled back; the store is left unchanged by the failed write. -/
theorem add_message_durable (now : String) (nowT : Int) (fs : FS) (st : AppState)
    (role content : String) (plots : Option (List ByteStr)) (image : Option ByteStr)
    (msgs : List MsgRecord) (hm : st.messages = some msgs)
    (sid : String) (hs : st.session_id = some sid) (hsid : sid ≠ "") :
    add_message false now nowT fs st role content plots image =
      .ok ({ st with messages := some (msgs ++
          [ChatMessage.to_dict ⟨role, content, none, some (plots.getD []), image⟩ now]) },
        fs) := by
  simp [add_message, hm, save_to_file, hs, hsid, save_session]

/-- Claim C4, witness: appending "hi" to an empty in-memory history with the
disk write failing: the call returns normally, the message is appended, the
store is untouched. -/
theorem add_message_durable_witness :
    add_message false "2024-01-01 00:00:00" 0 [] ⟨some [], some "sid"⟩ "user" "hi" none none =
      .ok (⟨some [⟨"user", "hi", "2024-01-01 00:00:00", [], none⟩], some "sid"⟩, []) :=
  add_message_durable "2024-01-01 00:00:00" 0 [] ⟨some [], some "sid"⟩ "user" "hi"
    none none [] rfl "sid" rfl (by decide)

/-- Claim C3: `list_sessions` returns exactly the entries of the files that
parse (corrupted files are skipped, never surfaced), sorted by `created_at`
descending (newest first), for every directory content and order. -/
theorem list_sessions_spec (fs : FS) :
    (list_sessions fs).Perm (fs.filterMap sessionMetaOf) ∧
      (list_sessions fs).Sorted newerFirst ∧
      ∀ s ∈ list_sessions fs, ∃ f ∈ fs, sessionMetaOf f = some s := by
  refine ⟨List.perm_insertionSort _ _, List.sorted_insertionSort _ _, ?_⟩
  intro s hs
  exact List.mem_filterMap.mp ((List.perm_insertionSort newerFirst _).mem_iff.mp hs)

/-- Claim C2: on first initialization (no `messages` key), if the store lists
at least one session and loading the newest-listed id yields a non-empty
message list, the manager adopts that id and those messages; otherwise (no
sessions, or the load returns absent or empty) it creates a new session with
the freshly generated id and an empty message list. -/
theorem initHistory_first (fs : FS) (freshA freshB : String) (st : AppState)
    (h : st.messages = none) :
    (∀ mr rest loaded, list_sessions fs = mr :: rest →
        load_session fs mr.session_id = some loaded → loaded ≠ [] →
        initHistory fs freshA freshB st =
          { messages := some loaded, session_id := some mr.session_id }) ∧
      ((list_sessions fs = [] ∨
          ∃ mr rest, list_sessions fs = mr :: rest ∧
            (load_session fs mr.session_id = none ∨
              load_session fs mr.session_id = some [])) →
        initHistory fs freshA freshB st =
          { messages := some [], session_id := some freshA }) := by
  constructor
  · intro mr rest loaded hl hload hne
    simp [initHistory, h, hl, hload, List.isEmpty_iff, hne]
  · intro hcase
    rcases hcase with hnil | ⟨mr, rest, hl, hnone | hempty⟩
    · simp [initHistory, h, hnil, create_new_session]
    · simp [initHistory, h, hl, hnone, create_new_session]
    · simp [initHistory, h, hl, hempty, create_new_session]

/-- Claim C2, witness: a store holding session "a" (older) and "b" (newer,
non-empty), saved in that order: a fresh manager adopts "b"'s id and
messages. -/
theorem initHistory_first_witness :
    initHistory
        [⟨"a", 0, .valid ⟨"a", "2024-01-01T00:00:00", 1,
            [⟨"user", "old", "2024-01-01 00:00:00", [], none⟩]⟩⟩,
         ⟨"b", 0, .valid ⟨"b", "2024-03-01T00:00:00", 1,
            [⟨"user", "new", "2024-03-01 00:00:00", [], none⟩]⟩⟩]
        "fA" "fB" ⟨none, none⟩ =
      { messages := some [⟨"user", "new", "2024-03-01 00:00:00", [], none⟩],
        session_id := some "b" } :=
  (initHistory_first _ "fA" "fB" ⟨none, none⟩ rfl).1
    ⟨"b", "2024-03-01T00:00:00", 1⟩ [⟨"a", "2024-01-01T00:00:00", 1⟩]
    [⟨"user", "new", "2024-03-01 00:00:00", [], none⟩]
    (by decide) rfl (by simp)

/-- Decoding an encoded plots list element-wise recovers the blobs. -/
theorem map_decode_encode (l : List ByteStr) (h : ∀ p ∈ l, ValidBytes p) :
    l.map (b64decode ∘ b64encode) = l := by
  induction l with
  | nil => rfl
  | cons p ps ih =>
    simp [Function.comp, b64_roundtrip p (h p (by simp)),
      ih (fun x hx => h x (by simp [hx]))]

/-- The plots decode of `load_session` undoes the plots encode of
`save_session` (both truthiness guards included). -/
theorem decode_encode_plots (plots : List ByteStr) (h : ∀ p ∈ plots, ValidBytes p) :
    (if (if plots.isEmpty then [] else plots.map b64encode).isEmpty then []
      else (if plots.isEmpty then [] else plots.map b64encode).map b64decode) = plots := by
  cases plots with
  | nil => rfl
  | cons p ps =>
    simp
    exact ⟨b64_roundtrip p (h p (by simp)),
      map_decode_encode ps (fun x hx => h x (by simp [hx]))⟩

/-- A message whose image blob (if any) is non-empty serializes successfully,
and decoding the serialized form recovers the original record. -/
theorem encodeMsg_decode (m : MsgRecord) (hv : m.Valid) (him : m.image ≠ some []) :
    ∃ e, encodeMsg m = some e ∧ decodeEncMsg e = m := by
  obtain ⟨role, content, ts, plots, image⟩ := m
  obtain ⟨hplots, himage⟩ := hv
  simp only at hplots himage him
  have hplots' :
      (if (plots : List ByteStr).isEmpty then ([] : List String)
        else plots.map b64encode) = if plots.isEmpty then [] else plots.map b64encode := rfl
  cases image with
  | none =>
    refine ⟨⟨role, content, ts,
      if (plots : List ByteStr).isEmpty then [] else plots.map b64encode, none⟩, rfl, ?_⟩
    simp only [decodeEncMsg, Option.map_none']
    rw [MsgRecord.mk.injEq]
    exact ⟨rfl, rfl, rfl, decode_encode_plots plots hplots, rfl⟩
  | some b =>
    have hb : b ≠ [] := fun hh => him (by simp [hh])
    have hbe : b.isEmpty = false := by simpa [List.isEmpty_iff] using hb
    have hbv : ValidBytes b := himage b rfl
    refine ⟨⟨role, content, ts,
      if (plots : List ByteStr).isEmpty then [] else plots.map b64encode,
      some (b64encode b)⟩, ?_, ?_⟩
    · simp [encodeMsg, hbe]
    · simp only [decodeEncMsg, Option.map_some']
      rw [MsgRecord.mk.injEq]
      refine ⟨rfl, rfl, rfl, decode_encode_plots plots hplots, ?_⟩
      rw [if_neg (b64encode_ne_empty b hb), b64_roundtrip b hbv]

/-- Whole-list version of `encodeMsg_decode`. -/
theorem encodeMessages_decode (msgs : List MsgRecord)
    (hv : ∀ m ∈ msgs, m.Valid) (him : ∀ m ∈ msgs, m.image ≠ some []) :
    ∃ encs, encodeMessages msgs = some encs ∧ encs.map decodeEncMsg = msgs := by
  induction msgs with
  | nil => exact ⟨[], rfl, rfl⟩
  | cons m rest ih =>
    obtain ⟨e, he, hd⟩ := encodeMsg_decode m (hv m (by simp)) (him m (by simp))
    obtain ⟨encs, hes, hds⟩ :=
      ih (fun x hx => hv x (by simp [hx])) (fun x hx => him x (by simp [hx]))
    exact ⟨e :: encs, by simp [encodeMessages, he, hes], by simp [hd, hds]⟩

/-- Claim C1, counterexample: a message list containing one message with a
present zero-length image blob: saving reports failure, the file is left
corrupted, and loading returns absent — not a sequence equal to the
original.  The round trip therefore does not hold for *every* sequence of
message records. -/
theorem save_load_roundtrip_cex :
    load_session
        (save_session true "2024-06-01T00:00:00" 0 [] "sid"
          [⟨"user", "hi", "2024-01-01 00:00:00", [], some []⟩]).1 "sid" ≠
      some [⟨"user", "hi", "2024-01-01 00:00:00", [], some []⟩] := by decide

/-- Claim C1, amended: for every sequence of message records whose blobs are
byte lists and whose present image blobs are non-empty (zero-length image
blobs make the save itself fail, see the counterexample), saving under an id
and loading that id yields the original sequence, equal in role, content,
timestamp, plots and image; empty plots lists, present (non-empty) image
blobs and unicode content are all covered. -/
theorem save_load_roundtrip (fs : FS) (now : String) (nowT : Int) (sid : String)
    (msgs : List MsgRecord) (hv : ∀ m ∈ msgs, m.Valid)
    (him : ∀ m ∈ msgs, m.image ≠ some []) :
    load_session (save_session true now nowT fs sid msgs).1 sid = some msgs := by
  obtain ⟨encs, he, hd⟩ := encodeMessages_decode msgs hv him
  simp [save_session, he, load_session, fsLookup_fsSet, hd]

/-- Claim C1, amended, witness: a unicode message with empty plots and a
present binary image, plus a message with two plot blobs (one empty):
save-then-load returns exactly the original records. -/
theorem save_load_roundtrip_witness :
    load_session
        (save_session true "2024-06-02T00:00:00" 7 [] "sid"
          [⟨"user", "héllo ✓", "2024-01-01 00:00:00", [], some [255, 0, 16]⟩,
           ⟨"assistant", "ok", "2024-01-01 00:00:01", [[1, 2, 3], []], none⟩]).1 "sid" =
      some [⟨"user", "héllo ✓", "2024-01-01 00:00:00", [], some [255, 0, 16]⟩,
            ⟨"assistant", "ok", "2024-01-01 00:00:01", [[1, 2, 3], []], none⟩] :=
  save_load_roundtrip [] "2024-06-02T00:00:00" 7 "sid"
    [⟨"user", "héllo ✓", "2024-01-01 00:00:00", [], some [255, 0, 16]⟩,
     ⟨"assistant", "ok", "2024-01-01 00:00:01", [[1, 2, 3], []], none⟩]
    (by decide) (by decide)

end Chatbot
